import Mathlib

/-!
Verification of the real-time speech segmentation and transcription-dispatch
pipeline of the CluelyClone repository, as implemented in
`electron-audio-companion/renderer-improved.js`.

The embedding below translates the relevant renderer functions into Lean:
strings become lists of characters, JavaScript numbers become `Nat`
(millisecond timestamps, byte sizes) or `ℚ` (audio energies, similarity
scores).  The floating-point value `NaN`, which arises in
`calculateSimilarity` from the division `0 / 0`, is modelled by `Option ℚ`
with `none` standing for `NaN`; every comparison `NaN > x` is `false` in
JavaScript, which the `none` branch reproduces.
-/

namespace Cluely

/-! ## String model: `toLowerCase().trim()` -/

/-- JavaScript `String.prototype.trim`: drop leading and trailing
whitespace. -/
def trim (l : List Char) : List Char :=
  ((l.dropWhile Char.isWhitespace).reverse.dropWhile Char.isWhitespace).reverse

/-- The normalization `text.toLowerCase().trim()` used by
`isDuplicateTranscription` and `addToTranscriptionHistory`. -/
def normalize (l : List Char) : List Char :=
  trim (l.map Char.toLower)

/-! ## The Levenshtein matrix of `calculateSimilarity` (renderer lines 448-468)

The source fills a `(len2+1) x (len1+1)` matrix with
`matrix[0][i] = i`, `matrix[j][0] = j` and
`matrix[j][i] = min(matrix[j][i-1]+1, matrix[j-1][i]+1, matrix[j-1][i-1]+cost)`
where `cost = (str1[i-1] === str2[j-1]) ? 0 : 1`.  `levMatrix s1 s2 j i`
is the entry `matrix[j][i]`. -/

def levMatrix (s1 s2 : List Char) : Nat → Nat → Nat
  | 0, i => i
  | j + 1, 0 => j + 1
  | j + 1, i + 1 =>
      min (levMatrix s1 s2 (j + 1) i + 1)
        (min (levMatrix s1 s2 j (i + 1) + 1)
          (levMatrix s1 s2 j i + (if s1.getD i ' ' = s2.getD j ' ' then 0 else 1)))
termination_by j i => (j, i)

/-- The distance value `matrix[len2][len1]` read off by
`calculateSimilarity`. -/
def levMatrixDist (s1 s2 : List Char) : Nat :=
  levMatrix s1 s2 s2.length s1.length

/-- Reference (textbook) Levenshtein distance, recursing on list heads.
This is the definition the specification appeals to when it writes
`LevenshteinDistance`. -/
def levRef : List Char → List Char → Nat
  | [], ys => ys.length
  | x :: xs, [] => (x :: xs).length
  | x :: xs, y :: ys =>
      min (levRef xs (y :: ys) + 1)
        (min (levRef (x :: xs) ys + 1)
          (levRef xs ys + (if x = y then 0 else 1)))
termination_by a b => (a.length, b.length)

theorem levRef_nil_left (ys : List Char) : levRef [] ys = ys.length := by
  simp [levRef]

theorem levRef_nil_right (xs : List Char) : levRef xs [] = xs.length := by
  cases xs <;> simp [levRef]

theorem levRef_cons_cons (x y : Char) (xs ys : List Char) :
    levRef (x :: xs) (y :: ys) =
      min (levRef xs (y :: ys) + 1)
        (min (levRef (x :: xs) ys + 1)
          (levRef xs ys + (if x = y then 0 else 1))) := by
  simp [levRef]

/-- Pushing an addition inside a binary minimum; used to flatten the
nested minimum expressions arising from the Levenshtein recurrences. -/
theorem natMinAdd (a b c : ℕ) : (a ⊓ b) + c = (a + c) ⊓ (b + c) := by omega

/-- The textbook recursion also satisfies the recurrence on the last
characters of both strings.  This is the key lemma relating the
matrix orientation of the source to the head recursion of `levRef`. -/
theorem levRef_snoc (x y : Char) (xs ys : List Char) :
    levRef (xs ++ [x]) (ys ++ [y]) =
      min (levRef xs (ys ++ [y]) + 1)
        (min (levRef (xs ++ [x]) ys + 1)
          (levRef xs ys + (if x = y then 0 else 1))) := by
  suffices h : ∀ n (xs ys : List Char), xs.length + ys.length ≤ n →
      levRef (xs ++ [x]) (ys ++ [y]) =
        min (levRef xs (ys ++ [y]) + 1)
          (min (levRef (xs ++ [x]) ys + 1)
            (levRef xs ys + (if x = y then 0 else 1))) from
    h (xs.length + ys.length) xs ys le_rfl
  intro n
  induction n with
  | zero =>
      intro xs ys h
      have hx : xs = [] := by cases xs with | nil => rfl | cons a l => simp at h
      have hy : ys = [] := by cases ys with | nil => rfl | cons a l => simp at h
      subst hx; subst hy
      simp [levRef]
  | succ n ih =>
      intro xs ys h
      match xs, ys with
      | [], [] => simp [levRef]
      | [], y' :: ys' =>
          have h1 := ih [] ys' (by simp at h ⊢; omega)
          simp only [List.nil_append, List.cons_append] at h1 ⊢
          rw [levRef_cons_cons x y' [] (ys' ++ [y]), h1, levRef_cons_cons x y' [] ys']
          simp only [levRef_nil_left, levRef_nil_right, List.length_append,
            List.length_cons, List.length_nil]
          generalize levRef [x] ys' = A
          generalize (if x = y then (0 : Nat) else 1) = ca
          generalize (if x = y' then (0 : Nat) else 1) = cb
          simp only [natMinAdd]
          apply le_antisymm <;> simp only [le_min_iff, min_le_iff] <;> omega
      | x' :: xs', [] =>
          have h1 := ih xs' [] (by simp at h ⊢; omega)
          simp only [List.nil_append, List.cons_append] at h1 ⊢
          rw [levRef_cons_cons x' y (xs' ++ [x]) [], h1, levRef_cons_cons x' y xs' []]
          simp only [levRef_nil_left, levRef_nil_right, List.length_append,
            List.length_cons, List.length_nil]
          generalize levRef xs' [y] = A
          generalize (if x = y then (0 : Nat) else 1) = ca
          generalize (if x' = y then (0 : Nat) else 1) = cb
          simp only [natMinAdd]
          apply le_antisymm <;> simp only [le_min_iff, min_le_iff] <;> omega
      | x' :: xs', y' :: ys' =>
          have h1 := ih xs' (y' :: ys') (by simp at h ⊢; omega)
          have h2 := ih (x' :: xs') ys' (by simp at h ⊢; omega)
          have h3 := ih xs' ys' (by simp at h ⊢; omega)
          simp only [List.cons_append] at h1 h2 h3 ⊢
          rw [levRef_cons_cons x' y' (xs' ++ [x]) (ys' ++ [y]), h1, h2, h3,
            levRef_cons_cons x' y' xs' (ys' ++ [y]),
            levRef_cons_cons x' y' (xs' ++ [x]) ys',
            levRef_cons_cons x' y' xs' ys']
          generalize levRef xs' (y' :: (ys' ++ [y])) = A
          generalize levRef (xs' ++ [x]) (y' :: ys') = B
          generalize levRef xs' (y' :: ys') = C
          generalize levRef (x' :: xs') (ys' ++ [y]) = D
          generalize levRef (x' :: (xs' ++ [x])) ys' = E
          generalize levRef (x' :: xs') ys' = F
          generalize levRef xs' (ys' ++ [y]) = G
          generalize levRef (xs' ++ [x]) ys' = H
          generalize levRef xs' ys' = K
          generalize (if x = y then (0 : Nat) else 1) = ca
          generalize (if x' = y' then (0 : Nat) else 1) = cb
          simp only [natMinAdd]
          apply le_antisymm <;> simp only [le_min_iff, min_le_iff] <;> omega

/-- Levenshtein distance is invariant under reversing both strings. -/
theorem levRef_reverse (xs ys : List Char) :
    levRef xs.reverse ys.reverse = levRef xs ys := by
  suffices h : ∀ n (xs ys : List Char), xs.length + ys.length ≤ n →
      levRef xs.reverse ys.reverse = levRef xs ys from
    h (xs.length + ys.length) xs ys le_rfl
  intro n
  induction n with
  | zero =>
      intro xs ys h
      have hx : xs = [] := by cases xs with | nil => rfl | cons a l => simp at h
      have hy : ys = [] := by cases ys with | nil => rfl | cons a l => simp at h
      subst hx; subst hy; rfl
  | succ n ih =>
      intro xs ys h
      match xs, ys with
      | [], ys => simp [levRef_nil_left]
      | x :: xs, [] => simp [levRef_nil_right]
      | x :: xs, y :: ys =>
          rw [List.reverse_cons, List.reverse_cons, levRef_snoc,
            levRef_cons_cons]
          rw [show xs.reverse ++ [x] = (x :: xs).reverse from (List.reverse_cons x xs).symm,
            show ys.reverse ++ [y] = (y :: ys).reverse from (List.reverse_cons y ys).symm]
          rw [ih xs (y :: ys) (by simp at h ⊢; omega),
            ih (x :: xs) ys (by simp at h ⊢; omega),
            ih xs ys (by simp at h ⊢; omega)]

theorem take_succ_reverse (l : List Char) (i : Nat) (h : i < l.length) :
    (l.take (i + 1)).reverse = l.getD i ' ' :: (l.take i).reverse := by
  rw [List.take_succ]
  simp [List.getElem?_eq_getElem h, List.getD, h]

/-- The matrix entry `matrix[j][i]` is the Levenshtein distance of the
reversed `i`-prefix of `str1` and the reversed `j`-prefix of `str2`. -/
theorem levMatrix_eq_levRef (s1 s2 : List Char) :
    ∀ j i, j ≤ s2.length → i ≤ s1.length →
      levMatrix s1 s2 j i = levRef ((s1.take i).reverse) ((s2.take j).reverse) := by
  intro j
  induction j with
  | zero =>
      intro i hj hi
      rw [show levMatrix s1 s2 0 i = i from by simp [levMatrix]]
      simp only [List.take_zero, List.reverse_nil, levRef_nil_right,
        List.length_reverse, List.length_take]
      omega
  | succ j ihj =>
      intro i hj
      induction i with
      | zero =>
          intro hi
          rw [show levMatrix s1 s2 (j + 1) 0 = j + 1 from by simp [levMatrix]]
          simp only [List.take_zero, List.reverse_nil, levRef_nil_left,
            List.length_reverse, List.length_take]
          omega
      | succ i ihi =>
          intro hi
          rw [show levMatrix s1 s2 (j + 1) (i + 1) =
              min (levMatrix s1 s2 (j + 1) i + 1)
                (min (levMatrix s1 s2 j (i + 1) + 1)
                  (levMatrix s1 s2 j i +
                    (if s1.getD i ' ' = s2.getD j ' ' then 0 else 1)))
            from by simp [levMatrix]]
          rw [ihi (by omega), ihj (i + 1) (by omega) (by omega), ihj i (by omega) (by omega)]
          rw [take_succ_reverse s1 i (by omega), take_succ_reverse s2 j (by omega),
            levRef_cons_cons]

/-- The value computed by the dynamic-programming matrix of
`calculateSimilarity` is exactly the textbook Levenshtein distance of the
two input strings. -/
theorem levMatrixDist_eq_levRef (s1 s2 : List Char) :
    levMatrixDist s1 s2 = levRef s1 s2 := by
  unfold levMatrixDist
  rw [levMatrix_eq_levRef s1 s2 s2.length s1.length le_rfl le_rfl,
    List.take_length s1, List.take_length s2]
  exact levRef_reverse s1 s2

theorem levRef_self (l : List Char) : levRef l l = 0 := by
  induction l with
  | nil => simp [levRef]
  | cons x xs ih => rw [levRef_cons_cons]; simp [ih]

/-- The Levenshtein distance never exceeds the length of the longer
string. -/
theorem levRef_le_max (xs ys : List Char) :
    levRef xs ys ≤ max xs.length ys.length := by
  suffices h : ∀ n (xs ys : List Char), xs.length + ys.length ≤ n →
      levRef xs ys ≤ max xs.length ys.length from
    h (xs.length + ys.length) xs ys le_rfl
  intro n
  induction n with
  | zero =>
      intro xs ys h
      have hx : xs = [] := by cases xs with | nil => rfl | cons a l => simp at h
      have hy : ys = [] := by cases ys with | nil => rfl | cons a l => simp at h
      subst hx; subst hy; simp [levRef]
  | succ n ih =>
      intro xs ys h
      match xs, ys with
      | [], ys => rw [levRef_nil_left]; exact le_max_right _ _
      | x :: xs, [] => rw [levRef_nil_right]; exact le_max_left _ _
      | x :: xs, y :: ys =>
          rw [levRef_cons_cons]
          have hrec := ih xs ys (by simp at h ⊢; omega)
          have hc : (if x = y then (0 : Nat) else 1) ≤ 1 := by split <;> omega
          refine le_trans (min_le_right _ _) (le_trans (min_le_right _ _) ?_)
          have hstep : levRef xs ys + (if x = y then (0 : Nat) else 1) ≤
              max xs.length ys.length + 1 := Nat.add_le_add hrec hc
          refine le_trans hstep ?_
          simp only [List.length_cons]
          omega

/-! ## Duplicate detection (renderer lines 439-475)

Configuration constants from the `AudioCaptureManager` constructor. -/

/-- `this.maxTranscriptionHistory = 5` (line 48). -/
def maxTranscriptionHistory : Nat := 5

/-- `calculateSimilarity(str1, str2)` (lines 448-468): builds the
Levenshtein matrix and returns `1 - distance / max(len1, len2)`.
When both strings are empty the JavaScript division is `0 / 0 = NaN`;
that case is modelled as `none`. -/
def calculateSimilarity (s1 s2 : List Char) : Option ℚ :=
  if max s1.length s2.length = 0 then none
  else some (1 - (levMatrixDist s1 s2 : ℚ) / (max s1.length s2.length : ℚ))

/-- The per-entry test of the `some` callback inside
`isDuplicateTranscription`: `similarity > 0.8`.  A `NaN` similarity
(modelled as `none`) compares false in JavaScript. -/
def entryTriggers (cleanText prev : List Char) : Bool :=
  match calculateSimilarity cleanText prev with
  | none => false
  | some s => decide ((4 : ℚ) / 5 < s)

/-- `isDuplicateTranscription(text)` (lines 440-446): normalize the
incoming text and compare against every retained transcription. -/
def isDuplicateTranscription (text : List Char) (lastTranscriptions : List (List Char)) :
    Bool :=
  let cleanText := normalize text
  lastTranscriptions.any fun prev => entryTriggers cleanText prev

/-- `addToTranscriptionHistory(text)` (lines 470-475): push the normalized
text, then drop the oldest entry whenever the history exceeds
`maxTranscriptionHistory`. -/
def addToTranscriptionHistory (lastTranscriptions : List (List Char))
    (text : List Char) : List (List Char) :=
  let pushed := lastTranscriptions ++ [normalize text]
  if maxTranscriptionHistory < pushed.length then pushed.drop 1 else pushed

/-- The accept/reject decision of `transcribeWithOpenAI` for a transcript
string that came back from the service (lines 699-712): a duplicate is
skipped, a fresh transcript is recorded in the history and emitted. -/
def filterSubmit (lastTranscriptions : List (List Char)) (t : List Char) :
    Bool × List (List Char) :=
  if isDuplicateTranscription t lastTranscriptions then (false, lastTranscriptions)
  else (true, addToTranscriptionHistory lastTranscriptions t)

/-! ## The buffering and dispatch machine (renderer lines 327-359, 735-842, 953-978)

`MediaRecorder.ondataavailable` pushes raw recorder chunks into
`speechBuffer`; `checkSpeechActivity` runs on the 50 ms monitoring timer;
`processBuffer` runs on the 100 ms buffer timer.  Each event carries the
value of `Date.now()` observed by the handler, and the analyser readings
(`averageVolume`, `normalizedMaxVolume`) are inputs of the monitoring tick.
The `subs` field is the trace of calls to the transcription API made by
`transcribeWithOpenAI` (the `fetch` of line 682); the body of
`processBufferedSpeechImmediate` and `processBuffer` runs synchronously up
to that call, so each event is one atomic step. -/

/-- One raw chunk delivered by `MediaRecorder.ondataavailable`; `id` tags
the chunk so that distinct deliveries can be told apart, `size` is
`event.data.size` in bytes. -/
structure Chunk where
  id : Nat
  size : Nat
deriving DecidableEq, Repr

/-- One call to the transcription API: the raw chunks that were combined
into the submitted blob (`new Blob(chunks, ...)`), and the time of the
flush that produced it. -/
structure Clip where
  chunks : List Chunk
  time : Nat
deriving DecidableEq, Repr

/-- `blob.size`: the size of a blob built from a chunk list is the sum of
the chunk sizes. -/
def blobSize (chunks : List Chunk) : Nat :=
  (chunks.map Chunk.size).sum

/-- `this.silenceThreshold = 600` (line 31). -/
def silenceThreshold : Nat := 600

/-- `this.minSpeechDuration = 400` (line 32). -/
def minSpeechDuration : Nat := 400

/-- `this.speechThreshold = 0.008` (line 33), written with `mkRat` so that
comparisons evaluate inside the kernel. -/
def speechThreshold : ℚ := mkRat 8 1000

theorem speechThreshold_eq_div : speechThreshold = 8 / 1000 := by
  norm_num [speechThreshold, Rat.mkRat_eq_div]

/-- The peak gate `normalizedMaxVolume > 0.05` of line 755. -/
def peakVolumeGate : ℚ := mkRat 5 100

theorem peakVolumeGate_eq_div : peakVolumeGate = 5 / 100 := by
  norm_num [peakVolumeGate, Rat.mkRat_eq_div]

/-- `this.minTranscriptionInterval = 300` (line 44). -/
def minTranscriptionInterval : Nat := 300

/-- `this.minAudioSizeForProcessing = 100000` (line 52). -/
def minAudioSizeForProcessing : Nat := 100000

/-- `this.maxBufferWaitTime = 3000` (line 53). -/
def maxBufferWaitTime : Nat := 3000

/-- The mutable fields of `AudioCaptureManager` that the segmentation and
dispatch pipeline reads and writes, plus the ghost trace `subs` of issued
transcription requests. -/
structure MState where
  nextId : Nat
  whisperReady : Bool
  isSpeaking : Bool
  speechStartTime : Nat
  lastSpeechTime : Nat
  speechBuffer : List Chunk
  pending : List Chunk
  lastBufferFlushTime : Nat
  subs : List Clip
deriving Repr

/-- The state right after construction with a configured API key
(`setupOpenAIWhisper` sets `whisperReady = true`). -/
def initState : MState :=
  { nextId := 0, whisperReady := true, isSpeaking := false,
    speechStartTime := 0, lastSpeechTime := 0, speechBuffer := [],
    pending := [], lastBufferFlushTime := 0, subs := [] }

/-- `transcribeWithOpenAI(audioBlob)` up to and including the `fetch`
(lines 606-688): the call returns without contacting the service when
Whisper is not ready or the blob is under 1000 bytes; otherwise the blob
is submitted.  Response handling only touches the transcript filter and is
modelled separately. -/
def transcribeWithOpenAI (s : MState) (blob : List Chunk) (t : Nat) : MState :=
  if s.whisperReady = true ∧ 1000 ≤ blobSize blob then
    { s with subs := s.subs ++ [{ chunks := blob, time := t }] }
  else s

/-- `processBufferedSpeechImmediate()` (lines 794-842): move the speech
buffer into the pending buffer; if the pending total reaches
`minAudioSizeForProcessing`, combine everything into one blob, clear the
pending buffer and transcribe the blob; either way record the flush
time. -/
def processBufferedSpeechImmediate (s : MState) (t : Nat) : MState :=
  if s.whisperReady = false ∨ s.speechBuffer = [] then s
  else
    let s1 := { s with speechBuffer := [], pending := s.pending ++ s.speechBuffer }
    if minAudioSizeForProcessing ≤ blobSize s1.pending then
      let s2 := transcribeWithOpenAI { s1 with pending := [] } s1.pending t
      { s2 with lastBufferFlushTime := t }
    else
      { s1 with lastBufferFlushTime := t }

/-- `checkSpeechActivity()` (lines 735-792) at time `t` with analyser
readings `avg` (`averageVolume`) and `peak` (`normalizedMaxVolume`). -/
def checkSpeechActivity (s : MState) (t : Nat) (avg peak : ℚ) : MState :=
  if speechThreshold < avg ∨ peakVolumeGate < peak then
    if s.isSpeaking = false then
      { s with isSpeaking := true, speechStartTime := t, lastSpeechTime := t }
    else
      { s with lastSpeechTime := t }
  else
    if s.isSpeaking = true then
      if silenceThreshold < t - s.lastSpeechTime then
        let s1 :=
          if minSpeechDuration ≤ t - s.speechStartTime ∧ s.speechBuffer ≠ [] then
            processBufferedSpeechImmediate s t
          else s
        { s1 with isSpeaking := false }
      else s
    else s

/-- `processBuffer()` (lines 953-978) at time `t`: when chunks have been
pending for longer than `maxBufferWaitTime`, combine them into one blob,
clear the buffer, and transcribe the blob if it reaches 10000 bytes. -/
def processBuffer (s : MState) (t : Nat) : MState :=
  if s.pending ≠ [] ∧ maxBufferWaitTime < t - s.lastBufferFlushTime then
    let s1 :=
      if 10000 ≤ blobSize s.pending then
        transcribeWithOpenAI { s with pending := [] } s.pending t
      else { s with pending := [] }
    { s1 with lastBufferFlushTime := t }
  else s

/-- `mediaRecorder.ondataavailable` (lines 327-331): a chunk with positive
size is appended to the speech buffer. -/
def chunkArrive (s : MState) (size : Nat) : MState :=
  if 0 < size then
    { s with
        speechBuffer := s.speechBuffer ++ [⟨s.nextId, size⟩],
        nextId := s.nextId + 1 }
  else s

/-- External events driving the pipeline. -/
inductive Event where
  | chunk (size : Nat)
  | tick (t : Nat) (avg peak : ℚ)
  | bufTick (t : Nat)
deriving Repr

def step (s : MState) : Event → MState
  | Event.chunk size => chunkArrive s size
  | Event.tick t avg peak => checkSpeechActivity s t avg peak
  | Event.bufTick t => processBuffer s t

def run (es : List Event) : MState :=
  es.foldl step initState

/-! ## Chunk-ownership invariant

Every raw chunk lives in at most one place: the speech buffer, the pending
buffer, or the payload of exactly one issued transcription request. -/

/-- All chunks currently owned by the pipeline: buffered ones plus the
payloads of every issued request. -/
def allChunks (s : MState) : List Chunk :=
  s.speechBuffer ++ s.pending ++ (s.subs.map Clip.chunks).flatten

def allIds (s : MState) : List Nat :=
  (allChunks s).map Chunk.id

/-- Chunk ids are below the id counter and no id appears twice anywhere in
the pipeline. -/
def ChunkInv (s : MState) : Prop :=
  (∀ n ∈ allIds s, n < s.nextId) ∧ (allIds s).Nodup

theorem chunkInv_of_perm {s s' : MState} (h : ChunkInv s)
    (hp : List.Perm (allChunks s') (allChunks s)) (hid : s.nextId ≤ s'.nextId) :
    ChunkInv s' := by
  refine ⟨fun n hn => ?_, ?_⟩
  · have hn' : n ∈ allIds s := (hp.map Chunk.id).mem_iff.mp hn
    have := h.1 n hn'
    omega
  · exact ((hp.map Chunk.id).nodup_iff).mpr h.2

theorem chunkInv_of_sublist {s s' : MState} (h : ChunkInv s)
    (hp : List.Sublist (allChunks s') (allChunks s)) (hid : s.nextId ≤ s'.nextId) :
    ChunkInv s' := by
  refine ⟨fun n hn => ?_, ?_⟩
  · have hn' : n ∈ allIds s := (hp.map Chunk.id).mem hn
    have := h.1 n hn'
    omega
  · exact h.2.sublist (hp.map Chunk.id)

theorem chunkInv_chunkArrive {s : MState} (h : ChunkInv s) (size : Nat) :
    ChunkInv (chunkArrive s size) := by
  unfold chunkArrive
  split
  · have hp : List.Perm (allChunks { s with
        speechBuffer := s.speechBuffer ++ [⟨s.nextId, size⟩],
        nextId := s.nextId + 1 }) ((⟨s.nextId, size⟩ : Chunk) :: allChunks s) := by
      simp only [allChunks]
      calc List.Perm
            ((s.speechBuffer ++ [⟨s.nextId, size⟩]) ++ s.pending ++
              (s.subs.map Clip.chunks).flatten)
            (((⟨s.nextId, size⟩ : Chunk) :: s.speechBuffer) ++ s.pending ++
              (s.subs.map Clip.chunks).flatten) :=
          (List.perm_append_singleton _ _).append_right _ |>.append_right _
        _ = _ := by simp
    refine ⟨fun n hn => ?_, ?_⟩
    · have hn' : n ∈ ((⟨s.nextId, size⟩ : Chunk) :: allChunks s).map Chunk.id :=
        (hp.map Chunk.id).mem_iff.mp hn
      simp only [List.map_cons, List.mem_cons] at hn'
      rcases hn' with h1 | h1
      · simp [h1]
      · have := h.1 n h1
        simp only []
        omega
    · unfold allIds
      rw [(hp.map Chunk.id).nodup_iff]
      simp only [List.map_cons, List.nodup_cons]
      refine ⟨fun hmem => ?_, h.2⟩
      have := h.1 _ hmem
      omega
  · exact h

/-! ### Branch equations for the step functions -/

theorem pbsi_noop (s : MState) (t : Nat)
    (h : s.whisperReady = false ∨ s.speechBuffer = []) :
    processBufferedSpeechImmediate s t = s := by
  unfold processBufferedSpeechImmediate
  rw [if_pos h]

theorem pbsi_submit (s : MState) (t : Nat) (hr : s.whisperReady = true)
    (hsb : s.speechBuffer ≠ [])
    (hsize : minAudioSizeForProcessing ≤ blobSize (s.pending ++ s.speechBuffer)) :
    processBufferedSpeechImmediate s t =
      { s with
          speechBuffer := [], pending := [],
          subs := s.subs ++ [⟨s.pending ++ s.speechBuffer, t⟩],
          lastBufferFlushTime := t } := by
  have hgate : (1000 : Nat) ≤ blobSize (s.pending ++ s.speechBuffer) := by
    have : (1000 : Nat) ≤ minAudioSizeForProcessing := by
      unfold minAudioSizeForProcessing; omega
    omega
  simp [processBufferedSpeechImmediate, transcribeWithOpenAI, hr, hsb, hsize, hgate]

theorem pbsi_hold (s : MState) (t : Nat) (hr : s.whisperReady = true)
    (hsb : s.speechBuffer ≠ [])
    (hsize : ¬ minAudioSizeForProcessing ≤ blobSize (s.pending ++ s.speechBuffer)) :
    processBufferedSpeechImmediate s t =
      { s with
          speechBuffer := [], pending := s.pending ++ s.speechBuffer,
          lastBufferFlushTime := t } := by
  simp [processBufferedSpeechImmediate, hr, hsb, hsize]

theorem csa_speech_start (s : MState) (t : Nat) (avg peak : ℚ)
    (hdet : speechThreshold < avg ∨ peakVolumeGate < peak)
    (hsp : s.isSpeaking = false) :
    checkSpeechActivity s t avg peak =
      { s with isSpeaking := true, speechStartTime := t, lastSpeechTime := t } := by
  simp [checkSpeechActivity, hdet, hsp]

theorem csa_speech_cont (s : MState) (t : Nat) (avg peak : ℚ)
    (hdet : speechThreshold < avg ∨ peakVolumeGate < peak)
    (hsp : s.isSpeaking = true) :
    checkSpeechActivity s t avg peak = { s with lastSpeechTime := t } := by
  simp [checkSpeechActivity, hdet, hsp]

theorem csa_idle (s : MState) (t : Nat) (avg peak : ℚ)
    (hdet : ¬(speechThreshold < avg ∨ peakVolumeGate < peak))
    (hsp : s.isSpeaking = false) :
    checkSpeechActivity s t avg peak = s := by
  simp [checkSpeechActivity, hdet, hsp]

theorem csa_silence_short (s : MState) (t : Nat) (avg peak : ℚ)
    (hdet : ¬(speechThreshold < avg ∨ peakVolumeGate < peak))
    (hsp : s.isSpeaking = true)
    (hsil : ¬ silenceThreshold < t - s.lastSpeechTime) :
    checkSpeechActivity s t avg peak = s := by
  simp [checkSpeechActivity, hdet, hsp, hsil]

theorem csa_end_flush (s : MState) (t : Nat) (avg peak : ℚ)
    (hdet : ¬(speechThreshold < avg ∨ peakVolumeGate < peak))
    (hsp : s.isSpeaking = true)
    (hsil : silenceThreshold < t - s.lastSpeechTime)
    (hdur : minSpeechDuration ≤ t - s.speechStartTime ∧ s.speechBuffer ≠ []) :
    checkSpeechActivity s t avg peak =
      { processBufferedSpeechImmediate s t with isSpeaking := false } := by
  simp [checkSpeechActivity, hdet, hsp, hsil, hdur]

theorem csa_end_noflush (s : MState) (t : Nat) (avg peak : ℚ)
    (hdet : ¬(speechThreshold < avg ∨ peakVolumeGate < peak))
    (hsp : s.isSpeaking = true)
    (hsil : silenceThreshold < t - s.lastSpeechTime)
    (hdur : ¬(minSpeechDuration ≤ t - s.speechStartTime ∧ s.speechBuffer ≠ [])) :
    checkSpeechActivity s t avg peak = { s with isSpeaking := false } := by
  simp [checkSpeechActivity, hdet, hsp, hsil, hdur]

theorem pb_noop (s : MState) (t : Nat)
    (h : ¬(s.pending ≠ [] ∧ maxBufferWaitTime < t - s.lastBufferFlushTime)) :
    processBuffer s t = s := by
  simp [processBuffer, h]

theorem pb_submit (s : MState) (t : Nat) (hp : s.pending ≠ [])
    (ht : maxBufferWaitTime < t - s.lastBufferFlushTime)
    (hr : s.whisperReady = true) (hs : 10000 ≤ blobSize s.pending) :
    processBuffer s t =
      { s with
          pending := [], subs := s.subs ++ [⟨s.pending, t⟩],
          lastBufferFlushTime := t } := by
  have hgate : (1000 : Nat) ≤ blobSize s.pending := by omega
  simp [processBuffer, transcribeWithOpenAI, hp, ht, hr, hs, hgate]

theorem pb_drop (s : MState) (t : Nat) (hp : s.pending ≠ [])
    (ht : maxBufferWaitTime < t - s.lastBufferFlushTime)
    (h : s.whisperReady = false ∨ ¬ 10000 ≤ blobSize s.pending) :
    processBuffer s t = { s with pending := [], lastBufferFlushTime := t } := by
  rcases h with h | h
  · by_cases hs : 10000 ≤ blobSize s.pending
    · simp [processBuffer, transcribeWithOpenAI, hp, ht, hs, h]
    · simp [processBuffer, hp, ht, hs]
  · simp [processBuffer, hp, ht, h]

theorem arrive_pos (s : MState) (size : Nat) (h : 0 < size) :
    chunkArrive s size =
      { s with
          speechBuffer := s.speechBuffer ++ [⟨s.nextId, size⟩],
          nextId := s.nextId + 1 } := by
  simp [chunkArrive, h]

theorem arrive_zero (s : MState) (size : Nat) (h : ¬ 0 < size) :
    chunkArrive s size = s := by
  simp [chunkArrive, h]

/-! ### Invariant preservation -/

theorem perm_shuffle_flush (sb p j : List Chunk) :
    List.Perm (j ++ (p ++ sb)) (sb ++ p ++ j) :=
  (List.perm_append_comm).trans ((List.perm_append_comm).append_right j)

theorem chunkInv_processBufferedSpeechImmediate {s : MState} (h : ChunkInv s)
    (t : Nat) : ChunkInv (processBufferedSpeechImmediate s t) := by
  by_cases h1 : s.whisperReady = false ∨ s.speechBuffer = []
  · rw [pbsi_noop s t h1]; exact h
  · push_neg at h1
    have hr : s.whisperReady = true := by
      cases hw : s.whisperReady with
      | false => exact absurd hw h1.1
      | true => rfl
    by_cases h2 : minAudioSizeForProcessing ≤ blobSize (s.pending ++ s.speechBuffer)
    · rw [pbsi_submit s t hr h1.2 h2]
      refine chunkInv_of_perm h ?_ (le_refl _)
      simp only [allChunks, List.map_append, List.flatten_append, List.map_cons,
        List.map_nil, List.flatten_cons, List.flatten_nil, List.append_nil,
        List.nil_append]
      exact perm_shuffle_flush s.speechBuffer s.pending _
    · rw [pbsi_hold s t hr h1.2 h2]
      refine chunkInv_of_perm h ?_ (le_refl _)
      simp only [allChunks, List.nil_append]
      exact (List.perm_append_comm).append_right _

theorem chunkInv_checkSpeechActivity {s : MState} (h : ChunkInv s)
    (t : Nat) (avg peak : ℚ) : ChunkInv (checkSpeechActivity s t avg peak) := by
  by_cases hdet : speechThreshold < avg ∨ peakVolumeGate < peak
  · cases hsp : s.isSpeaking with
    | false => rw [csa_speech_start s t avg peak hdet hsp]; exact ⟨h.1, h.2⟩
    | true => rw [csa_speech_cont s t avg peak hdet hsp]; exact ⟨h.1, h.2⟩
  · cases hsp : s.isSpeaking with
    | false => rw [csa_idle s t avg peak hdet hsp]; exact h
    | true =>
        by_cases hsil : silenceThreshold < t - s.lastSpeechTime
        · by_cases hdur : minSpeechDuration ≤ t - s.speechStartTime ∧ s.speechBuffer ≠ []
          · rw [csa_end_flush s t avg peak hdet hsp hsil hdur]
            have hi := chunkInv_processBufferedSpeechImmediate h t
            exact ⟨hi.1, hi.2⟩
          · rw [csa_end_noflush s t avg peak hdet hsp hsil hdur]; exact ⟨h.1, h.2⟩
        · rw [csa_silence_short s t avg peak hdet hsp hsil]; exact h

theorem chunkInv_processBuffer {s : MState} (h : ChunkInv s) (t : Nat) :
    ChunkInv (processBuffer s t) := by
  by_cases h1 : s.pending ≠ [] ∧ maxBufferWaitTime < t - s.lastBufferFlushTime
  · by_cases hok : s.whisperReady = true ∧ 10000 ≤ blobSize s.pending
    · rw [pb_submit s t h1.1 h1.2 hok.1 hok.2]
      refine chunkInv_of_perm h ?_ (le_refl _)
      simp only [allChunks, List.map_append, List.flatten_append, List.map_cons,
        List.map_nil, List.flatten_cons, List.flatten_nil, List.append_nil]
      rw [List.append_assoc]
      exact (List.perm_append_comm).append_left s.speechBuffer
    · have hd : s.whisperReady = false ∨ ¬ 10000 ≤ blobSize s.pending := by
        cases hw : s.whisperReady with
        | false => exact Or.inl rfl
        | true => right; intro hs; exact hok ⟨hw, hs⟩
      rw [pb_drop s t h1.1 h1.2 hd]
      refine chunkInv_of_sublist h ?_ (le_refl _)
      simp only [allChunks, List.nil_append, List.append_nil]
      rw [List.append_assoc]
      exact (List.sublist_append_right _ _).append_left s.speechBuffer
  · rw [pb_noop s t h1]; exact h

theorem chunkInv_step {s : MState} (h : ChunkInv s) (e : Event) :
    ChunkInv (step s e) := by
  cases e with
  | chunk size => exact chunkInv_chunkArrive h size
  | tick t avg peak => exact chunkInv_checkSpeechActivity h t avg peak
  | bufTick t => exact chunkInv_processBuffer h t

theorem chunkInv_initState : ChunkInv initState := by
  constructor
  · intro n hn; simp [allIds, allChunks, initState] at hn
  · simp [allIds, allChunks, initState]

theorem chunkInv_run (es : List Event) : ChunkInv (run es) := by
  suffices h : ∀ s, ChunkInv s → ChunkInv (es.foldl step s) from
    h initState chunkInv_initState
  induction es with
  | nil => intro s hs; exact hs
  | cons e es ih => intro s hs; exact ih (step s e) (chunkInv_step hs e)

/-! ## Facts about the similarity computation -/

theorem calculateSimilarity_eq_formula (s1 s2 : List Char)
    (h : 0 < max s1.length s2.length) :
    calculateSimilarity s1 s2 =
      some (1 - (levRef s1 s2 : ℚ) / (max s1.length s2.length : ℚ)) := by
  unfold calculateSimilarity
  rw [if_neg (by omega), levMatrixDist_eq_levRef]

theorem calculateSimilarity_self (l : List Char) (h : l ≠ []) :
    calculateSimilarity l l = some 1 := by
  have hlen : 0 < l.length := List.length_pos.mpr h
  rw [calculateSimilarity_eq_formula l l (by omega)]
  rw [levRef_self]
  simp

theorem entryTriggers_eq_true_iff (a b : List Char) :
    entryTriggers a b = true ↔
      ∃ q, calculateSimilarity a b = some q ∧ (4 : ℚ) / 5 < q := by
  unfold entryTriggers
  cases hc : calculateSimilarity a b with
  | none => simp
  | some s => simp [decide_eq_true_iff]

theorem entryTriggers_self (l : List Char) (h : l ≠ []) :
    entryTriggers l l = true := by
  rw [entryTriggers_eq_true_iff]
  exact ⟨1, calculateSimilarity_self l h, by norm_num⟩

theorem isDuplicate_iff (t : List Char) (hist : List (List Char)) :
    isDuplicateTranscription t hist = true ↔
      ∃ h ∈ hist, entryTriggers (normalize t) h = true := by
  unfold isDuplicateTranscription
  simp [List.any_eq_true]

theorem mem_addToTranscriptionHistory (hist : List (List Char)) (t : List Char) :
    normalize t ∈ addToTranscriptionHistory hist t := by
  simp only [addToTranscriptionHistory]
  split
  · rename_i hlen
    have h1 : 1 ≤ hist.length := by
      simp only [List.length_append, List.length_singleton] at hlen
      unfold maxTranscriptionHistory at hlen
      omega
    rw [List.drop_append_of_le_length h1]
    simp
  · simp

/-- Claim C4: for every incoming transcript and every history entry, the
filter computes `similarity = 1 - LevenshteinDistance(normalize t, h) /
max(len1, len2)` (with `normalize` lowercasing and trimming, and `none`
standing for the `NaN` of `0 / 0`), and the transcript is rejected as a
duplicate exactly when some history entry has similarity strictly greater
than `0.8`. -/
theorem C4_similarity_formula_and_rejection :
    (∀ s1 s2 : List Char, 0 < max s1.length s2.length →
        calculateSimilarity s1 s2 =
          some (1 - (levRef s1 s2 : ℚ) / (max s1.length s2.length : ℚ)))
    ∧ (∀ (t : List Char) (hist : List (List Char)),
        isDuplicateTranscription t hist = true ↔
          ∃ h ∈ hist, ∃ q, calculateSimilarity (normalize t) h = some q ∧
            (4 : ℚ) / 5 < q) := by
  constructor
  · exact calculateSimilarity_eq_formula
  · intro t hist
    rw [isDuplicate_iff]
    constructor
    · rintro ⟨h, hmem, htrig⟩
      exact ⟨h, hmem, (entryTriggers_eq_true_iff _ _).mp htrig⟩
    · rintro ⟨h, hmem, hq⟩
      exact ⟨h, hmem, (entryTriggers_eq_true_iff _ _).mpr hq⟩

/-- Witness for C4 at a concrete pair of strings. -/
theorem C4_similarity_formula_and_rejection_witness :
    0 < max (['a'] : List Char).length ([] : List Char).length ∧
    calculateSimilarity ['a'] [] =
      some (1 - (levRef ['a'] [] : ℚ) /
        (max (['a'] : List Char).length ([] : List Char).length : ℚ)) :=
  ⟨by decide, C4_similarity_formula_and_rejection.1 ['a'] [] (by decide)⟩

/-- Claim C10: for strings that are not both empty the similarity is a
well-defined rational in `[0, 1]`; for two empty strings the division is
`0 / 0`, the result is the JavaScript `NaN` (modelled as `none`), the
duplicate test is false, and hence an empty history entry can never cause
a duplicate rejection. -/
theorem C10_similarity_range_and_nan :
    (∀ s1 s2 : List Char, ¬(s1 = [] ∧ s2 = []) →
        ∃ q, calculateSimilarity s1 s2 = some q ∧ 0 ≤ q ∧ q ≤ 1)
    ∧ calculateSimilarity [] [] = none
    ∧ (∀ t : List Char, entryTriggers (normalize t) [] = false) := by
  refine ⟨?_, ?_, ?_⟩
  · intro s1 s2 hne
    have hm : 0 < max s1.length s2.length := by
      cases s1 with
      | nil =>
          cases s2 with
          | nil => exact absurd ⟨rfl, rfl⟩ hne
          | cons b l2 => simp
      | cons a l1 => simp [Nat.lt_of_lt_of_le (Nat.succ_pos _) (le_max_left _ _)]
    refine ⟨1 - (levRef s1 s2 : ℚ) / (max s1.length s2.length : ℚ),
      calculateSimilarity_eq_formula s1 s2 hm, ?_, ?_⟩
    · have hle : levRef s1 s2 ≤ max s1.length s2.length := levRef_le_max s1 s2
      have hq : (levRef s1 s2 : ℚ) / (max s1.length s2.length : ℚ) ≤ 1 := by
        rw [div_le_one (by exact_mod_cast hm)]
        exact_mod_cast hle
      linarith
    · have hq : 0 ≤ (levRef s1 s2 : ℚ) / (max s1.length s2.length : ℚ) := by
        positivity
      linarith
  · unfold calculateSimilarity
    simp
  · intro t
    unfold entryTriggers
    cases hn : normalize t with
    | nil =>
        rw [show calculateSimilarity [] [] = none from by unfold calculateSimilarity; simp]
    | cons a l =>
        rw [calculateSimilarity_eq_formula (a :: l) [] (by simp)]
        rw [levRef_nil_right]
        have hne0 : (((a :: l).length : Nat) : ℚ) ≠ 0 := by
          have hpos : 0 < (a :: l).length := by simp
          exact_mod_cast hpos.ne'
        have hval : (1 : ℚ) - ((a :: l).length : ℚ) /
            (max ((a :: l).length : ℚ) (([] : List Char).length : ℚ)) = 0 := by
          have h0 : (([] : List Char).length : ℚ) = 0 := by simp
          rw [h0, max_eq_left (by positivity)]
          rw [div_self hne0]
          ring
        rw [hval]
        show decide ((4 : ℚ) / 5 < 0) = false
        rw [decide_eq_false_iff_not]
        norm_num

/-- Witness for C10 at a concrete pair of strings. -/
theorem C10_similarity_range_and_nan_witness :
    ¬((['a', 'b'] : List Char) = [] ∧ (['a'] : List Char) = []) ∧
    ∃ q, calculateSimilarity ['a', 'b'] ['a'] = some q ∧ 0 ≤ q ∧ q ≤ 1 :=
  ⟨by decide, C10_similarity_range_and_nan.1 ['a', 'b'] ['a'] (by decide)⟩

/-- Claim C6: a non-empty transcript that is not currently a duplicate is
accepted exactly once: the first submission is accepted (and recorded in
the history), the immediately repeated submission is rejected, because the
recorded normalized text has self-similarity `1 > 0.8`. -/
theorem C6_filter_idempotent (t : List Char) (hist : List (List Char))
    (hne : normalize t ≠ [])
    (hfresh : isDuplicateTranscription t hist = false) :
    (filterSubmit hist t).1 = true ∧
    (filterSubmit (filterSubmit hist t).2 t).1 = false := by
  have hsub1 : filterSubmit hist t = (true, addToTranscriptionHistory hist t) := by
    unfold filterSubmit
    rw [hfresh]
    simp
  refine ⟨by rw [hsub1], ?_⟩
  rw [hsub1]
  have hdup2 : isDuplicateTranscription t (addToTranscriptionHistory hist t) = true := by
    rw [isDuplicate_iff]
    exact ⟨normalize t, mem_addToTranscriptionHistory hist t,
      entryTriggers_self (normalize t) hne⟩
  unfold filterSubmit
  rw [hdup2]
  simp

/-- Witness for C6 at a concrete transcript and empty history. -/
theorem C6_filter_idempotent_witness :
    normalize ['h', 'i'] ≠ [] ∧
    isDuplicateTranscription ['h', 'i'] [] = false ∧
    ((filterSubmit [] ['h', 'i']).1 = true ∧
      (filterSubmit (filterSubmit [] ['h', 'i']).2 ['h', 'i']).1 = false) :=
  ⟨by decide, by decide, C6_filter_idempotent ['h', 'i'] [] (by decide) (by decide)⟩

/-- Claim C7: the history never exceeds the cap of 5 entries, every
acceptance appends the normalized text, overflow evicts exactly the oldest
entry, and after 6 acceptances the first accepted transcript is gone from
the history used by the similarity checks. -/
theorem C7_history_bound :
    (∀ (hist : List (List Char)) (t : List Char),
        hist.length ≤ maxTranscriptionHistory →
        (addToTranscriptionHistory hist t).length ≤ maxTranscriptionHistory)
    ∧ (∀ (hist : List (List Char)) (t : List Char),
        hist.length = maxTranscriptionHistory →
        addToTranscriptionHistory hist t = hist.drop 1 ++ [normalize t])
    ∧ (∀ t0 t1 t2 t3 t4 t5 : List Char,
        List.foldl addToTranscriptionHistory [] [t0, t1, t2, t3, t4, t5] =
          [normalize t1, normalize t2, normalize t3, normalize t4, normalize t5]) := by
  refine ⟨?_, ?_, ?_⟩
  · intro hist t h
    simp only [addToTranscriptionHistory]
    split
    · rename_i hlen
      simp only [List.length_drop, List.length_append, List.length_singleton]
      omega
    · rename_i hlen
      simp only [List.length_append, List.length_singleton] at hlen ⊢
      omega
  · intro hist t h
    simp only [addToTranscriptionHistory]
    rw [if_pos (by
      simp only [List.length_append, List.length_singleton, h]
      unfold maxTranscriptionHistory
      omega)]
    rw [List.drop_append_of_le_length (by
      rw [h]
      unfold maxTranscriptionHistory
      omega)]
  · intro t0 t1 t2 t3 t4 t5
    simp [addToTranscriptionHistory, maxTranscriptionHistory]

/-- Witness for C7 at the empty history. -/
theorem C7_history_bound_witness :
    ([] : List (List Char)).length ≤ maxTranscriptionHistory ∧
    (addToTranscriptionHistory [] ['a']).length ≤ maxTranscriptionHistory :=
  ⟨by decide, C7_history_bound.1 [] ['a'] (by decide)⟩

/-! ## Per-step submission structure -/

theorem pbsi_subs (s : MState) (t : Nat) :
    (processBufferedSpeechImmediate s t).subs = s.subs ∨
    ∃ cl, (processBufferedSpeechImmediate s t).subs = s.subs ++ [cl] := by
  by_cases h1 : s.whisperReady = false ∨ s.speechBuffer = []
  · left; rw [pbsi_noop s t h1]
  · push_neg at h1
    have hr : s.whisperReady = true := by
      cases hw : s.whisperReady with
      | false => exact absurd hw h1.1
      | true => rfl
    by_cases h2 : minAudioSizeForProcessing ≤ blobSize (s.pending ++ s.speechBuffer)
    · right
      exact ⟨⟨s.pending ++ s.speechBuffer, t⟩, by rw [pbsi_submit s t hr h1.2 h2]⟩
    · left; rw [pbsi_hold s t hr h1.2 h2]

theorem csa_subs (s : MState) (t : Nat) (avg peak : ℚ) :
    (checkSpeechActivity s t avg peak).subs = s.subs ∨
    ∃ cl, (checkSpeechActivity s t avg peak).subs = s.subs ++ [cl] := by
  by_cases hdet : speechThreshold < avg ∨ peakVolumeGate < peak
  · cases hsp : s.isSpeaking with
    | false => left; rw [csa_speech_start s t avg peak hdet hsp]
    | true => left; rw [csa_speech_cont s t avg peak hdet hsp]
  · cases hsp : s.isSpeaking with
    | false => left; rw [csa_idle s t avg peak hdet hsp]
    | true =>
        by_cases hsil : silenceThreshold < t - s.lastSpeechTime
        · by_cases hdur : minSpeechDuration ≤ t - s.speechStartTime ∧ s.speechBuffer ≠ []
          · rw [csa_end_flush s t avg peak hdet hsp hsil hdur]
            exact pbsi_subs s t
          · left; rw [csa_end_noflush s t avg peak hdet hsp hsil hdur]
        · left; rw [csa_silence_short s t avg peak hdet hsp hsil]

theorem pb_subs (s : MState) (t : Nat) :
    (processBuffer s t).subs = s.subs ∨
    ∃ cl, (processBuffer s t).subs = s.subs ++ [cl] := by
  by_cases h1 : s.pending ≠ [] ∧ maxBufferWaitTime < t - s.lastBufferFlushTime
  · by_cases hok : s.whisperReady = true ∧ 10000 ≤ blobSize s.pending
    · right
      exact ⟨⟨s.pending, t⟩, by rw [pb_submit s t h1.1 h1.2 hok.1 hok.2]⟩
    · have hd : s.whisperReady = false ∨ ¬ 10000 ≤ blobSize s.pending := by
        cases hw : s.whisperReady with
        | false => exact Or.inl rfl
        | true => right; intro hs; exact hok ⟨hw, hs⟩
      left; rw [pb_drop s t h1.1 h1.2 hd]
  · left; rw [pb_noop s t h1]

theorem step_subs (s : MState) (e : Event) :
    (step s e).subs = s.subs ∨ ∃ cl, (step s e).subs = s.subs ++ [cl] := by
  cases e with
  | chunk size =>
      simp only [step]
      by_cases h : 0 < size
      · left; rw [arrive_pos s size h]
      · left; rw [arrive_zero s size h]
  | tick t avg peak => exact csa_subs s t avg peak
  | bufTick t => exact pb_subs s t

/-- Claim C1: every flush encodes the accumulated raw chunks exactly once
into one clip, at most one clip per pipeline step; the chunk ids of any
two submitted clips are disjoint along every run, so two separate flushes
never share bytes and the payload of one submission is never the
concatenation of two separately submitted payloads. -/
theorem C1_single_encode_disjoint_flushes :
    (∀ es : List Event,
        ((run es).subs.map fun c => c.chunks.map Chunk.id).Pairwise List.Disjoint)
    ∧ (∀ (s : MState) (e : Event),
        (step s e).subs = s.subs ∨ ∃ cl, (step s e).subs = s.subs ++ [cl])
    ∧ (∀ (s : MState) (t : Nat), s.whisperReady = true → s.speechBuffer ≠ [] →
        minAudioSizeForProcessing ≤ blobSize (s.pending ++ s.speechBuffer) →
        processBufferedSpeechImmediate s t =
          { s with
              speechBuffer := [], pending := [],
              subs := s.subs ++ [⟨s.pending ++ s.speechBuffer, t⟩],
              lastBufferFlushTime := t }) := by
  refine ⟨?_, step_subs, pbsi_submit⟩
  intro es
  have hinv := (chunkInv_run es).2
  set s := run es with hs
  have hsplit : allIds s =
      (s.speechBuffer ++ s.pending).map Chunk.id ++
        ((s.subs.map Clip.chunks).flatten).map Chunk.id := by
    simp [allIds, allChunks]
  rw [hsplit] at hinv
  have hsub : (((s.subs.map Clip.chunks).flatten).map Chunk.id).Nodup :=
    hinv.sublist (List.sublist_append_right _ _)
  rw [List.map_flatten] at hsub
  rw [List.map_map] at hsub
  have := List.nodup_flatten.mp hsub
  have hpair := this.2
  simpa [Function.comp] using hpair

/-- Witness for the flush characterization of C1 at a concrete state. -/
theorem C1_single_encode_disjoint_flushes_witness :
    processBufferedSpeechImmediate
      { initState with speechBuffer := [⟨0, 200000⟩], nextId := 1 } 42 =
    { { initState with speechBuffer := [⟨0, 200000⟩], nextId := 1 } with
        speechBuffer := [], pending := [],
        subs := ({ initState with speechBuffer := [⟨0, 200000⟩], nextId := 1 }).subs ++
          [⟨({ initState with speechBuffer := [⟨0, 200000⟩], nextId := 1 }).pending ++
            [⟨0, 200000⟩], 42⟩],
        lastBufferFlushTime := 42 } :=
  C1_single_encode_disjoint_flushes.2.2
    { initState with speechBuffer := [⟨0, 200000⟩], nextId := 1 } 42
    (by decide) (by decide) (by decide)

/-- Claim C5: when a span is ended by silence but its measured duration
`t - speechStartTime` is under `minSpeechDuration`, the tick only resets
the speaking flag: no flush happens, the speech buffer and the pending
buffer are untouched, and no transcription request is issued. -/
theorem C5_short_span_no_flush (s : MState) (t : Nat) (avg peak : ℚ)
    (hdet : ¬(speechThreshold < avg ∨ peakVolumeGate < peak))
    (hsp : s.isSpeaking = true)
    (hsil : silenceThreshold < t - s.lastSpeechTime)
    (hdur : t - s.speechStartTime < minSpeechDuration) :
    checkSpeechActivity s t avg peak = { s with isSpeaking := false } :=
  csa_end_noflush s t avg peak hdet hsp hsil (fun hc => absurd hc.1 (by omega))

/-- Witness for C5 at a concrete short span. -/
theorem C5_short_span_no_flush_witness :
    checkSpeechActivity
      { initState with
          isSpeaking := true, speechStartTime := 1601, lastSpeechTime := 1300,
          speechBuffer := [⟨0, 150000⟩], nextId := 1 } 1950 0 0 =
    { { initState with
          isSpeaking := true, speechStartTime := 1601, lastSpeechTime := 1300,
          speechBuffer := [⟨0, 150000⟩], nextId := 1 } with isSpeaking := false } :=
  C5_short_span_no_flush _ 1950 0 0 (by decide) (by decide) (by decide) (by decide)

/-! ## Claim C3: adaptive silence threshold

The specification describes an adaptive Speaking-to-Idle threshold; the
following definition renders that rule in the words of the spec, to be
compared against the code. -/

/-- The silence limit claimed by the spec: once the accumulated speech
duration of the span exceeds the long-speech cutoff (2000 ms) a shorter
threshold (500 ms) applies, otherwise the configured default. -/
def specAdaptiveSilenceLimit (accumMs : Nat) : Nat :=
  if 2000 < accumMs then 500 else silenceThreshold

/-- A Speaking state 2500 ms into a span, with 200 KB of buffered audio. -/
def cexStateC3 : MState :=
  { initState with
      isSpeaking := true, speechStartTime := 0, lastSpeechTime := 2500,
      speechBuffer := [⟨0, 200000⟩], nextId := 1 }

/-- Counterexample to claim C3: the code does not use the adaptive
threshold.  At 550 ms of silence inside a span with 2500 ms of
accumulated speech, the adaptive rule would end the span (550 > 500) but
`checkSpeechActivity` keeps Speaking because 550 is not above the fixed
600 ms threshold. -/
theorem C3_adaptive_threshold_counterexample :
    ¬ (∀ (s : MState) (t : Nat) (avg peak : ℚ),
        ¬(speechThreshold < avg ∨ peakVolumeGate < peak) →
        s.isSpeaking = true →
        ((checkSpeechActivity s t avg peak).isSpeaking = false ↔
          specAdaptiveSilenceLimit (s.lastSpeechTime - s.speechStartTime) <
            t - s.lastSpeechTime)) := by
  intro hclaim
  have h := (hclaim cexStateC3 3050 0 0 (by decide) (by decide)).2 (by decide)
  exact absurd h (by decide)

/-- Claim C3 amended: the Speaking-to-Idle transition uses the fixed
configured silence threshold (600 ms) for every span; the transition
fires exactly when the silence gap exceeds it, regardless of the
accumulated speech duration. -/
theorem C3_amended_fixed_silence_threshold (s : MState) (t : Nat) (avg peak : ℚ)
    (hdet : ¬(speechThreshold < avg ∨ peakVolumeGate < peak))
    (hsp : s.isSpeaking = true) :
    (checkSpeechActivity s t avg peak).isSpeaking = false ↔
      silenceThreshold < t - s.lastSpeechTime := by
  constructor
  · intro h
    by_contra hsil
    rw [csa_silence_short s t avg peak hdet hsp hsil] at h
    rw [hsp] at h
    simp at h
  · intro hsil
    by_cases hdur : minSpeechDuration ≤ t - s.speechStartTime ∧ s.speechBuffer ≠ []
    · rw [csa_end_flush s t avg peak hdet hsp hsil hdur]
    · rw [csa_end_noflush s t avg peak hdet hsp hsil hdur]

/-- Witness for the amended C3 at a concrete state with 700 ms of
silence. -/
theorem C3_amended_fixed_silence_threshold_witness :
    (checkSpeechActivity cexStateC3 3200 0 0).isSpeaking = false ↔
      silenceThreshold < 3200 - cexStateC3.lastSpeechTime :=
  C3_amended_fixed_silence_threshold cexStateC3 3200 0 0 (by decide) (by decide)

/-! ## Claim C2: transcription pacing

A counterexample run: a first span is flushed at 1600 ms but stays below
the 100 KB immediate-processing floor, so its chunks wait in the pending
buffer; a second span is still in progress when the 100 ms buffer timer
reaches the 3000 ms timeout at 4700 ms and submits the pending clip; the
second span then ends at the 4750 ms monitoring tick and its 120 KB
buffer is flushed and submitted immediately — only 50 ms after the
previous submission. -/

def cexTraceC2 : List Event :=
  [Event.chunk 60000,
   Event.tick 500 1 0,
   Event.tick 950 1 0,
   Event.tick 1600 0 0,
   Event.chunk 120000,
   Event.tick 1700 1 0,
   Event.tick 4100 1 0,
   Event.bufTick 4700,
   Event.tick 4750 0 0]

/-- `gapsOk gap ts` checks that each consecutive pair of the time list
`ts` is at least `gap` milliseconds apart. -/
def gapsOk (gap : Nat) : List Nat → Bool
  | [] => true
  | [_] => true
  | a :: b :: rest => decide (a + gap ≤ b) && gapsOk gap (b :: rest)

theorem gapsOk_iff_chain (gap : Nat) (l : List Nat) :
    gapsOk gap l = true ↔ List.Chain' (fun a b => a + gap ≤ b) l := by
  induction l with
  | nil => simp [gapsOk]
  | cons a rest ih =>
      cases rest with
      | nil => simp [gapsOk]
      | cons b rest2 =>
          rw [List.chain'_cons]
          unfold gapsOk
          rw [Bool.and_eq_true, decide_eq_true_iff]
          exact and_congr Iff.rfl ih

/-- Counterexample to claim C2: consecutive submissions are not always
separated by `minTranscriptionInterval`; the run above issues requests at
4700 ms (timeout flush) and 4750 ms (boundary flush), 50 ms apart,
because both flush paths call `transcribeWithOpenAI` directly instead of
going through the rate-limited queue. -/
theorem C2_min_interval_counterexample :
    ¬ (∀ es : List Event,
        gapsOk minTranscriptionInterval (((run es).subs).map Clip.time) = true) := by
  intro hclaim
  exact absurd (hclaim cexTraceC2) (by decide)

/-! ## The transcription queue (renderer lines 139-161)

`startTranscriptionQueue` runs `processTranscriptionQueue` on a timer
firing every `minTranscriptionInterval` milliseconds; each invocation
takes at most one blob off the queue and submits it.  Nothing in the
renderer ever pushes onto `transcriptionQueue`; both flush paths submit
directly. -/

/-- The possible outcomes of the transcription `fetch`. -/
inductive FetchOutcome where
  | netError
  | apiError (status : Nat)
  | ok (text : List Char)
deriving DecidableEq, Repr

/-- Result of the response handling of `transcribeWithOpenAI`
(lines 606-733): the updated duplicate-filter history, whether the blob
was actually submitted to the service, and the accepted transcript, if
any.  A network error is caught and logged, a non-OK response returns
early, an empty transcript returns early, a duplicate is skipped; no path
throws and no path retries. -/
def transcribeOutcome (whisperReady : Bool) (hist : List (List Char))
    (blob : List Chunk) (o : FetchOutcome) :
    List (List Char) × Bool × Option (List Char) :=
  if whisperReady = true ∧ 1000 ≤ blobSize blob then
    match o with
    | FetchOutcome.netError => (hist, true, none)
    | FetchOutcome.apiError _ => (hist, true, none)
    | FetchOutcome.ok text =>
        let tr := trim text
        if 0 < tr.length then
          if isDuplicateTranscription tr hist then (hist, true, none)
          else (addToTranscriptionHistory hist tr, true, some tr)
        else (hist, true, none)
  else (hist, false, none)

/-- The observable effect of one `processTranscriptionQueue` invocation. -/
structure QueueStepResult where
  queue : List (List Chunk)
  hist : List (List Char)
  submitted : Option (List Chunk)
  accepted : Option (List Char)
deriving Repr

/-- `processTranscriptionQueue` (lines 148-161): a no-op when the busy
flag is set or the queue is empty; otherwise it shifts the first blob off
the queue and awaits `transcribeWithOpenAI` on it, catching any error,
and finally clears the busy flag. -/
def processTranscriptionQueueStep (whisperReady busy : Bool)
    (q : List (List Chunk)) (hist : List (List Char)) (o : FetchOutcome) :
    QueueStepResult :=
  if busy = true then ⟨q, hist, none, none⟩
  else
    match q with
    | [] => ⟨q, hist, none, none⟩
    | blob :: rest =>
        let r := transcribeOutcome whisperReady hist blob o
        ⟨rest, r.1, if r.2.1 then some blob else none, r.2.2⟩

/-- The submission times of a sequence of queue-processor invocations,
each given as the invocation time paired with the fetch outcome used for
the blob submitted there (if any). -/
def queueRunTimes (whisperReady : Bool) :
    List (List Chunk) → List (List Char) → List (Nat × FetchOutcome) → List Nat
  | _, _, [] => []
  | q, hist, (t, o) :: rest =>
      let r := processTranscriptionQueueStep whisperReady false q hist o
      match r.submitted with
      | some _ => t :: queueRunTimes whisperReady r.queue r.hist rest
      | none => queueRunTimes whisperReady r.queue r.hist rest

theorem queueRunTimes_sublist (whisperReady : Bool) (q : List (List Chunk))
    (hist : List (List Char)) (ticks : List (Nat × FetchOutcome)) :
    List.Sublist (queueRunTimes whisperReady q hist ticks)
      (ticks.map Prod.fst) := by
  induction ticks generalizing q hist with
  | nil => simp [queueRunTimes]
  | cons p rest ih =>
      obtain ⟨t, o⟩ := p
      simp only [queueRunTimes, List.map_cons]
      cases hsub : (processTranscriptionQueueStep whisperReady false q hist o).submitted with
      | some b => exact List.Sublist.cons₂ t (ih _ _)
      | none => exact List.Sublist.cons t (ih _ _)

/-- Claim C2 amended: the minimum-interval guarantee holds only for clips
dispatched from the transcription queue.  Each queue-processor invocation
submits at most one clip (and only the head of the queue), so when the
queue timer fires at instants at least `minTranscriptionInterval` apart,
consecutive queue submissions are at least that far apart.  Clips
produced by boundary or timeout flushes are submitted directly, outside
the queue, and are not paced (see the counterexample). -/
theorem C2_amended_queue_pacing (whisperReady : Bool) (q : List (List Chunk))
    (hist : List (List Char)) (ticks : List (Nat × FetchOutcome))
    (hspaced : gapsOk minTranscriptionInterval (ticks.map Prod.fst) = true) :
    gapsOk minTranscriptionInterval (queueRunTimes whisperReady q hist ticks)
      = true := by
  haveI : IsTrans Nat (fun a b => a + minTranscriptionInterval ≤ b) :=
    ⟨fun a b c h1 h2 => by omega⟩
  rw [gapsOk_iff_chain] at hspaced ⊢
  exact hspaced.sublist (queueRunTimes_sublist whisperReady q hist ticks)

/-- Witness for the amended C2 on a concrete tick sequence. -/
theorem C2_amended_queue_pacing_witness :
    gapsOk minTranscriptionInterval
      (queueRunTimes true [[⟨0, 2000⟩], [⟨1, 3000⟩]] []
        [(1000, FetchOutcome.netError), (1300, FetchOutcome.netError)]) = true :=
  C2_amended_queue_pacing true [[⟨0, 2000⟩], [⟨1, 3000⟩]] []
    [(1000, FetchOutcome.netError), (1300, FetchOutcome.netError)] (by decide)

/-- Claim C8: a failed submission is dropped without retry and without
propagating; the next queued clip is still submitted and can be accepted
independently.  With clips `A` and `B` queued and the submission of `A`
failing (network error or non-OK response), one queue invocation submits
`A`, accepts nothing and leaves the queue at `B :: rest` with the history
untouched; the next invocation submits `B`, and when the service returns
a fresh non-empty transcript for `B` it is accepted. -/
theorem C8_failure_drop_and_continue (A B : List Chunk)
    (rest : List (List Chunk)) (hist : List (List Char))
    (oA : FetchOutcome) (text : List Char)
    (hA : 1000 ≤ blobSize A) (hB : 1000 ≤ blobSize B)
    (hfail : oA = FetchOutcome.netError ∨ ∃ n, oA = FetchOutcome.apiError n)
    (htext : 0 < (trim text).length)
    (hdup : isDuplicateTranscription (trim text) hist = false) :
    (processTranscriptionQueueStep true false (A :: B :: rest) hist oA).submitted
        = some A
    ∧ (processTranscriptionQueueStep true false (A :: B :: rest) hist oA).accepted
        = none
    ∧ (processTranscriptionQueueStep true false (A :: B :: rest) hist oA).queue
        = B :: rest
    ∧ (processTranscriptionQueueStep true false (A :: B :: rest) hist oA).hist
        = hist
    ∧ (processTranscriptionQueueStep true false (B :: rest) hist
        (FetchOutcome.ok text)).submitted = some B
    ∧ (processTranscriptionQueueStep true false (B :: rest) hist
        (FetchOutcome.ok text)).accepted = some (trim text)
    ∧ (processTranscriptionQueueStep true false (B :: rest) hist
        (FetchOutcome.ok text)).queue = rest := by
  have hstep1 : ∀ target : QueueStepResult,
      target = ⟨B :: rest, hist, some A, none⟩ →
      processTranscriptionQueueStep true false (A :: B :: rest) hist oA = target := by
    intro target htgt
    subst htgt
    rcases hfail with hf | ⟨n, hf⟩ <;> subst hf <;>
      simp [processTranscriptionQueueStep, transcribeOutcome, hA]
  have h1 := hstep1 _ rfl
  have h2 : processTranscriptionQueueStep true false (B :: rest) hist
      (FetchOutcome.ok text) =
      ⟨rest, addToTranscriptionHistory hist (trim text), some B, some (trim text)⟩ := by
    simp [processTranscriptionQueueStep, transcribeOutcome, hB, htext, hdup]
  rw [h1, h2]
  exact ⟨rfl, rfl, rfl, rfl, rfl, rfl, rfl⟩

/-- Witness for C8 on concrete clips, histories and outcomes. -/
theorem C8_failure_drop_and_continue_witness :
    (processTranscriptionQueueStep true false [[⟨0, 2000⟩], [⟨1, 3000⟩]] []
      FetchOutcome.netError).submitted = some [⟨0, 2000⟩] ∧
    (processTranscriptionQueueStep true false [[⟨1, 3000⟩]] []
      (FetchOutcome.ok ['h', 'i'])).accepted = some (trim ['h', 'i']) := by
  have h := C8_failure_drop_and_continue [⟨0, 2000⟩] [⟨1, 3000⟩] [] []
    FetchOutcome.netError ['h', 'i'] (by decide) (by decide) (Or.inl rfl)
    (by decide) (by decide)
  exact ⟨h.1, h.2.2.2.2.2.1⟩

/-! ## Claim C9: pre-dispatch energy validation

`transcribeWithOpenAI` (lines 606-688) gates a blob only on readiness and
on `audioBlob.size < 1000`; `convertToWav` (lines 478-528) only converts
the container format.  No pre-dispatch code decodes the payload and
inspects its amplitudes.  To state the claim we carry the decoded
amplitude samples of the payload alongside its byte size. -/

/-- An encoded audio payload together with the amplitude samples it
decodes to. -/
structure AudioBlob where
  samples : List ℚ
  size : Nat
deriving Repr

def peakAmplitude (b : AudioBlob) : ℚ :=
  (b.samples.map (fun q => |q|)).foldr max 0

def averageAmplitude (b : AudioBlob) : ℚ :=
  if b.samples.length = 0 then 0
  else (b.samples.map (fun q => |q|)).sum / (b.samples.length : ℚ)

/-- The secondary energy check described by the spec for the Encoder:
discard a clip whose peak and average amplitude both fall under the
silence floors (0.01).  This definition follows the wording of the spec;
no corresponding code exists in the renderer. -/
def specEncoderDiscards (b : AudioBlob) : Bool :=
  decide (peakAmplitude b < mkRat 1 100) && decide (averageAmplitude b < mkRat 1 100)

/-- The only conditions `transcribeWithOpenAI` checks before issuing the
`fetch` (lines 607-615): Whisper readiness and the 1000-byte size gate. -/
def dispatchDecision (whisperReady : Bool) (b : AudioBlob) : Bool :=
  whisperReady && decide (1000 ≤ b.size)

/-- A 4000-byte clip decoding to all-zero samples: peak and average
amplitude are both 0, far below the 0.01 floor. -/
def silentBlobC9 : AudioBlob := ⟨List.replicate 5 0, 4000⟩

/-- Counterexample to claim C9: a clip whose payload is entirely silent
(peak and average amplitude 0 < 0.01) is nevertheless dispatched, because
the renderer performs no energy check on the encoded payload. -/
theorem C9_energy_check_counterexample :
    specEncoderDiscards silentBlobC9 = true ∧
    dispatchDecision true silentBlobC9 = true := by
  constructor
  · simp only [specEncoderDiscards, silentBlobC9, peakAmplitude, averageAmplitude]
    norm_num [List.replicate, Rat.mkRat_eq_div]
  · decide

/-- Claim C9 amended: the only pre-dispatch validation is the byte-size
gate: the dispatch decision depends only on readiness and `size`, never
on the amplitudes of the payload, and with Whisper ready a clip is
dispatched exactly when it is at least 1000 bytes — silent clips above
that floor included. -/
theorem C9_amended_size_gate_only :
    (∀ (r : Bool) (b1 b2 : AudioBlob), b1.size = b2.size →
        dispatchDecision r b1 = dispatchDecision r b2)
    ∧ (∀ b : AudioBlob, dispatchDecision true b = true ↔ 1000 ≤ b.size) := by
  constructor
  · intro r b1 b2 h
    unfold dispatchDecision
    rw [h]
  · intro b
    unfold dispatchDecision
    simp

/-- Witness for the amended C9: a silent blob and a loud blob of the same
size get the same decision. -/
theorem C9_amended_size_gate_only_witness :
    silentBlobC9.size = (⟨[1, 1], 4000⟩ : AudioBlob).size ∧
    dispatchDecision true silentBlobC9 =
      dispatchDecision true (⟨[1, 1], 4000⟩ : AudioBlob) :=
  ⟨by decide, C9_amended_size_gate_only.1 true silentBlobC9 ⟨[1, 1], 4000⟩ (by decide)⟩

end Cluely
